import Mathlib

/-!
Shallow embedding of the Excel-to-PDF batch converter (`excel_to_pdf.py`):
data model of the loaded table, the grouping step of `process_conversion`,
the text shaper `fix_persian_text`, the filename sanitization and the body
layout of `create_pdf_for_person`, and the per-group batch loop, together
with theorems settling the specification claims.
-/

namespace ExcelToPdf

/-- A spreadsheet cell: either the missing-value marker (pandas `NaN`,
detected by `pd.isna`) or an actual value, rendered via `str` as a string. -/
inductive Cell where
  | na : Cell
  | val (v : String) : Cell
  deriving DecidableEq, Repr

/-- A row: association of column names to cells (a pandas row indexed by
column label). -/
abbrev Row := List (String × Cell)

/-- The cell of row `r` in the column named `c` (`rowGet r c`).  Columns
looked up always come from `df.columns`, so every row has them; absent
associations default to the missing marker. -/
def rowGet (r : Row) (c : String) : Cell :=
  match r.lookup c with
  | some x => x
  | none => Cell.na

/-- The in-memory table produced by `read_excel_file`: the ordered column
list `df.columns` and the rows. -/
structure Table where
  columns : List String
  rows : List Row

/-- Extraction of the value of a non-missing cell
(`Series.dropna` keeps exactly these). -/
def cellVal? : Cell → Option String
  | Cell.na => none
  | Cell.val v => some v

/-- The key-column values of the table's rows with missing entries removed:
`df[name_column].dropna()`. -/
def nonNaKeys (t : Table) (K : String) : List String :=
  t.rows.filterMap (fun r => cellVal? (rowGet r K))

/-- First-occurrence deduplication (`Series.unique`), carrying the set of
values already seen. -/
def uniqueFirstAux (seen : List String) : List String → List String
  | [] => []
  | x :: xs =>
    if x ∈ seen then uniqueFirstAux seen xs
    else x :: uniqueFirstAux (x :: seen) xs

/-- Embedding of `df[name_column].dropna().unique()`: the distinct non-missing key
values in first-occurrence order (line 421 of the source). -/
def uniqueNames (t : Table) (K : String) : List String :=
  uniqueFirstAux [] (nonNaKeys t K)

/-- Embedding of `df[df[name_column] == name]`: the rows whose key-column cell equals
the given non-missing value (line 434 of the source); a missing cell
compares unequal to every value, as `NaN == name` is `False` in pandas. -/
def groupRows (t : Table) (K n : String) : List Row :=
  t.rows.filter (fun r => decide (rowGet r K = Cell.val n))

/-! ## Text shaper (`fix_persian_text`) -/

/-- The shaping environment: the process-wide `BIDI_SUPPORT` flag decided
at import time, and the two external reshape-then-bidi passes of
`fix_persian_text` — the full-configuration attempt and the minimal
fallback.  Each pass returns `none` when the underlying library raises. -/
structure ShapeEnv where
  bidiSupport : Bool
  fullShape : String → Option String
  simpleShape : String → Option String

/-- Embedding of `fix_persian_text`: `None` maps to `''`; without BiDi support the text
is returned verbatim; otherwise the full-configuration reshape is tried,
then the minimal fallback, and on double failure the original text is
returned.  Input is `Option String`, `none` standing for Python `None`
(`str` is the identity on the strings we model). -/
def fix_persian_text (e : ShapeEnv) (text : Option String) : String :=
  match text with
  | none => ""
  | some s =>
    if e.bidiSupport then
      match e.fullShape s with
      | some r => r
      | none =>
        match e.simpleShape s with
        | some r => r
        | none => s
    else s

/-! ## Filename sanitization (`create_pdf_for_person`, line 122) -/

/-- The character filter of the sanitizer:
`c.isalnum() or c in (' ', '-', '_')`.  The Unicode class test
`str.isalnum` is passed in as `isalnum`. -/
def keepChar (isalnum : Char → Bool) (c : Char) : Bool :=
  isalnum c || c = ' ' || c = '-' || c = '_'

/-- Python `str.rstrip()`: remove trailing whitespace. -/
def rstripW (s : List Char) : List Char :=
  (s.reverse.dropWhile Char.isWhitespace).reverse

/-- Embedding of the sanitizer of `create_pdf_for_person`, line 122:
keep alphanumeric characters, spaces, hyphens and underscores, then
right-strip whitespace. -/
def sanitizeName (isalnum : Char → Bool) (name : List Char) : List Char :=
  rstripW (name.filter (keepChar isalnum))

/-- String form of the sanitizer. -/
def sanitizeStr (isalnum : Char → Bool) (name : String) : String :=
  String.mk (sanitizeName isalnum name.data)

/-- Embedding of the output path `os.path.join` of the sanitized name with
the extension `.pdf` appended (output directory
without a trailing separator). -/
def pdfPath (isalnum : Char → Bool) (outputDir name : String) : String :=
  outputDir ++ "/" ++ sanitizeStr isalnum name ++ ".pdf"

/-! ## Body layout (`create_pdf_for_person`, lines 176-211) -/

/-- The value rendered for column `col` of a group:
`person_data[col].iloc[0] if not person_data[col].empty else ''`,
then `if pd.isna(value): value = '-'`, then `str(value)`.
Only the first row of the group is consulted. -/
def cellValue (g : List Row) (col : String) : String :=
  match g with
  | [] => ""
  | r :: _ =>
    match rowGet r col with
    | Cell.na => "-"
    | Cell.val v => v

/-- The table body `table_data` as built by the two loops of `create_pdf_for_person`:
with more than 10 columns, one appended `[value_fixed, col_fixed]` row per
column; otherwise the `headers` and `values` lists are accumulated, both
reversed in place, and the table is `[headers, values]`. -/
def buildTableData (e : ShapeEnv) (g : List Row) (cols : List String) :
    List (List String) :=
  if cols.length > 10 then
    cols.foldl
      (fun acc col =>
        acc ++ [[fix_persian_text e (some (cellValue g col)),
                 fix_persian_text e (some col)]])
      []
  else
    let headers := cols.foldl
      (fun acc col => acc ++ [fix_persian_text e (some col)]) []
    let values := cols.foldl
      (fun acc col => acc ++ [fix_persian_text e (some (cellValue g col))]) []
    [headers.reverse, values.reverse]

/-! ## Batch loop (`process_conversion`, lines 402-442) -/

/-- Errors that abort the batch before any group is processed. -/
inductive ConvError where
  | columnNotFound (requested : String) (available : List String) : ConvError
  deriving DecidableEq, Repr

/-- Comma-space join of the column names. -/
def joinComma : List String → String
  | [] => ""
  | [c] => c
  | c :: cs => c ++ ", " ++ joinComma cs

/-- The message shown when the key column is absent (lines 414-417):
`f"Column '{name_column}' not found.\nAvailable columns: {', '.join(df.columns)}"`. -/
def errorMessage : ConvError → String
  | ConvError.columnNotFound k cols =>
    "Column '" ++ k ++ "' not found.\nAvailable columns: " ++ joinComma cols

/-- The per-group loop: for each name, try `create_pdf_for_person`;
a success increments `success_count` and produces the PDF file at its
sanitized path, a raised exception increments `error_count` and the loop
continues.  `render` is the success oracle for the underlying PDF build
(`doc.build` may raise).  Result: (successCount, errorCount, produced
document paths in order). -/
def runBatch (isalnum : Char → Bool) (render : String → List Row → Bool)
    (t : Table) (K outputDir : String) :
    List String → Nat × Nat × List String
  | [] => (0, 0, [])
  | n :: ns =>
    let rest := runBatch isalnum render t K outputDir ns
    if render n (groupRows t K n) then
      (rest.1 + 1, rest.2.1, pdfPath isalnum outputDir n :: rest.2.2)
    else
      (rest.1, rest.2.1 + 1, rest.2.2)

/-- Embedding of `process_conversion` after loading: check the key column, then either
abort with the column-not-found error before any group is processed, or
run the whole per-group loop over the distinct non-missing key values. -/
def process_conversion (isalnum : Char → Bool)
    (render : String → List Row → Bool) (t : Table) (K outputDir : String) :
    Except ConvError (Nat × Nat × List String) :=
  if K ∈ t.columns then
    Except.ok (runBatch isalnum render t K outputDir (uniqueNames t K))
  else
    Except.error (ConvError.columnNotFound K t.columns)

/-- Number of occurrences of `needle` as a contiguous substring of `hay`,
counted by starting position. -/
def occurrencesIn (needle hay : List Char) : Nat :=
  (List.range (hay.length + 1)).countP (fun i => needle.isPrefixOf (hay.drop i))

/-- A shaping environment with BiDi support unavailable. -/
def envOff : ShapeEnv :=
  { bidiSupport := false, fullShape := fun _ => none, simpleShape := fun _ => none }

/-! ## Lemmas on first-occurrence deduplication -/

theorem mem_uniqueFirstAux {a : String} :
    ∀ (l seen : List String), a ∈ uniqueFirstAux seen l ↔ (a ∈ l ∧ a ∉ seen) := by
  intro l
  induction l with
  | nil => intro seen; simp [uniqueFirstAux]
  | cons x xs ih =>
    intro seen
    by_cases hx : x ∈ seen
    · simp only [uniqueFirstAux, if_pos hx, ih, List.mem_cons]
      constructor
      · rintro ⟨h1, h2⟩; exact ⟨Or.inr h1, h2⟩
      · rintro ⟨h1 | h1, h2⟩
        · exact absurd (h1 ▸ hx) h2
        · exact ⟨h1, h2⟩
    · simp only [uniqueFirstAux, if_neg hx, List.mem_cons, ih]
      constructor
      · rintro (rfl | ⟨h1, h2⟩)
        · exact ⟨Or.inl rfl, hx⟩
        · exact ⟨Or.inr h1, fun hs => h2 (Or.inr hs)⟩
      · rintro ⟨rfl | h1, h2⟩
        · exact Or.inl rfl
        · by_cases hax : a = x
          · exact Or.inl hax
          · exact Or.inr ⟨h1, by simp [List.mem_cons, hax, h2]⟩

theorem nodup_uniqueFirstAux :
    ∀ (l seen : List String), (uniqueFirstAux seen l).Nodup := by
  intro l
  induction l with
  | nil => intro seen; simp [uniqueFirstAux]
  | cons x xs ih =>
    intro seen
    by_cases hx : x ∈ seen
    · simpa [uniqueFirstAux, if_pos hx] using ih seen
    · simp only [uniqueFirstAux, if_neg hx, List.nodup_cons]
      refine ⟨fun hmem => ?_, ih (x :: seen)⟩
      exact ((mem_uniqueFirstAux _ _).1 hmem).2 (List.mem_cons_self _ _)

theorem length_uniqueFirstAux (l : List String) :
    (uniqueFirstAux [] l).length = l.toFinset.card := by
  have hset : (uniqueFirstAux [] l).toFinset = l.toFinset := by
    ext a
    simp [List.mem_toFinset, mem_uniqueFirstAux]
  calc (uniqueFirstAux [] l).length
      = (uniqueFirstAux [] l).toFinset.card :=
        (List.toFinset_card_of_nodup (nodup_uniqueFirstAux l [])).symm
    _ = l.toFinset.card := by rw [hset]

/-- C1: for every table `T` and key column `K` present in `T`, the union of
the groups' row sets (by row identity) is exactly the set of `T`'s rows with
a non-missing `K`-cell, no row lies in two distinct groups, and the number
of groups equals the number of distinct non-missing `K`-values. -/
theorem grouping_partitions_nonmissing_rows (t : Table) (K : String)
    (_hK : K ∈ t.columns) :
    (∀ r : Row, (∃ n, n ∈ uniqueNames t K ∧ r ∈ groupRows t K n) ↔
        (r ∈ t.rows ∧ rowGet r K ≠ Cell.na))
    ∧ (∀ n₁ n₂ : String, n₁ ∈ uniqueNames t K → n₂ ∈ uniqueNames t K →
        n₁ ≠ n₂ → ∀ r : Row, r ∈ groupRows t K n₁ → r ∉ groupRows t K n₂)
    ∧ (uniqueNames t K).length = (nonNaKeys t K).toFinset.card := by
  refine ⟨?_, ?_, length_uniqueFirstAux _⟩
  · intro r
    constructor
    · rintro ⟨n, _, hr⟩
      rw [groupRows, List.mem_filter] at hr
      refine ⟨hr.1, ?_⟩
      have := of_decide_eq_true hr.2
      rw [this]
      simp
    · rintro ⟨hmem, hna⟩
      obtain ⟨v, hv⟩ : ∃ v, rowGet r K = Cell.val v := by
        cases h : rowGet r K with
        | na => exact absurd h hna
        | val v => exact ⟨v, rfl⟩
      refine ⟨v, ?_, ?_⟩
      · rw [uniqueNames, mem_uniqueFirstAux]
        refine ⟨?_, List.not_mem_nil v⟩
        rw [nonNaKeys, List.mem_filterMap]
        exact ⟨r, hmem, by rw [hv]; rfl⟩
      · rw [groupRows, List.mem_filter]
        exact ⟨hmem, by rw [hv]; simp⟩
  · intro n₁ n₂ _ _ hne r hr₁ hr₂
    rw [groupRows, List.mem_filter] at hr₁ hr₂
    have h₁ := of_decide_eq_true hr₁.2
    have h₂ := of_decide_eq_true hr₂.2
    rw [h₁] at h₂
    exact hne (Cell.val.injEq .. ▸ h₂)

/-- Witness for C1 at a concrete table: key column `"k"` present among
columns `["k", "v"]`. -/
theorem grouping_partitions_nonmissing_rows_witness :
    ("k" ∈ (["k", "v"] : List String))
    ∧ ((∀ r : Row, (∃ n, n ∈ uniqueNames ⟨["k", "v"],
          [[("k", Cell.val "a"), ("v", Cell.val "1")],
           [("k", Cell.na), ("v", Cell.val "2")]]⟩ "k" ∧
          r ∈ groupRows ⟨["k", "v"],
          [[("k", Cell.val "a"), ("v", Cell.val "1")],
           [("k", Cell.na), ("v", Cell.val "2")]]⟩ "k" n) ↔
        (r ∈ (⟨["k", "v"],
          [[("k", Cell.val "a"), ("v", Cell.val "1")],
           [("k", Cell.na), ("v", Cell.val "2")]]⟩ : Table).rows ∧
          rowGet r "k" ≠ Cell.na))
      ∧ (∀ n₁ n₂ : String,
          n₁ ∈ uniqueNames ⟨["k", "v"],
            [[("k", Cell.val "a"), ("v", Cell.val "1")],
             [("k", Cell.na), ("v", Cell.val "2")]]⟩ "k" →
          n₂ ∈ uniqueNames ⟨["k", "v"],
            [[("k", Cell.val "a"), ("v", Cell.val "1")],
             [("k", Cell.na), ("v", Cell.val "2")]]⟩ "k" →
          n₁ ≠ n₂ → ∀ r : Row,
          r ∈ groupRows ⟨["k", "v"],
            [[("k", Cell.val "a"), ("v", Cell.val "1")],
             [("k", Cell.na), ("v", Cell.val "2")]]⟩ "k" n₁ →
          r ∉ groupRows ⟨["k", "v"],
            [[("k", Cell.val "a"), ("v", Cell.val "1")],
             [("k", Cell.na), ("v", Cell.val "2")]]⟩ "k" n₂)
      ∧ (uniqueNames ⟨["k", "v"],
          [[("k", Cell.val "a"), ("v", Cell.val "1")],
           [("k", Cell.na), ("v", Cell.val "2")]]⟩ "k").length =
        (nonNaKeys ⟨["k", "v"],
          [[("k", Cell.val "a"), ("v", Cell.val "1")],
           [("k", Cell.na), ("v", Cell.val "2")]]⟩ "k").toFinset.card) :=
  ⟨by decide, grouping_partitions_nonmissing_rows _ _ (by decide)⟩

/-! ## Text-shaper claims -/

/-- C7: the text shaper is total and never raises: `None` maps to the empty
string, and every string input is mapped either to itself (shaping
unavailable, or both reshape passes raise) or to the result of one of the
two reshape passes — in all cases a string is returned. -/
theorem shaper_total_never_raises (e : ShapeEnv) :
    fix_persian_text e none = ""
    ∧ ∀ s : String, fix_persian_text e (some s) = s ∨
        ∃ r, fix_persian_text e (some s) = r ∧
          (e.fullShape s = some r ∨ e.simpleShape s = some r) := by
  refine ⟨rfl, fun s => ?_⟩
  by_cases hb : e.bidiSupport
  · cases hf : e.fullShape s with
    | some r =>
      exact Or.inr ⟨r, by simp [fix_persian_text, hb, hf], Or.inl rfl⟩
    | none =>
      cases hs : e.simpleShape s with
      | some r =>
        exact Or.inr ⟨r, by simp [fix_persian_text, hb, hf, hs], Or.inr rfl⟩
      | none =>
        exact Or.inl (by simp [fix_persian_text, hb, hf, hs])
  · exact Or.inl (by simp [fix_persian_text, hb])

/-- C8: when BiDi support is unavailable the shaper is the identity on
strings, hence idempotent: `shape (shape x) = shape x = x`. -/
theorem shaper_identity_when_disabled (e : ShapeEnv)
    (h : e.bidiSupport = false) :
    ∀ x : String,
      fix_persian_text e (some x) = x ∧
      fix_persian_text e (some (fix_persian_text e (some x))) =
        fix_persian_text e (some x) := by
  intro x
  simp [fix_persian_text, h]

/-- Witness for C8: the disabled environment at the input `"abc"`. -/
theorem shaper_identity_when_disabled_witness :
    envOff.bidiSupport = false ∧
      (fix_persian_text envOff (some "abc") = "abc" ∧
       fix_persian_text envOff (some (fix_persian_text envOff (some "abc"))) =
         fix_persian_text envOff (some "abc")) :=
  ⟨rfl, shaper_identity_when_disabled envOff rfl "abc"⟩

/-! ## Sanitizer claims -/

theorem head_dropWhile_not {α : Type} (p : α → Bool) :
    ∀ (l : List α) (x : α), (l.dropWhile p).head? = some x → p x = false := by
  intro l
  induction l with
  | nil => intro x h; simp [List.dropWhile] at h
  | cons a as ih =>
    intro x h
    by_cases hp : p a
    · simp only [List.dropWhile_cons, if_pos hp] at h
      exact ih x h
    · simp only [List.dropWhile_cons, if_neg hp] at h
      obtain rfl : a = x := Option.some.inj h
      simpa using hp

/-- C2 counterexample: the sanitizer only strips trailing whitespace
(`rstrip`), so the entity name `" a"` sanitizes to `" a"`, which starts
with a whitespace character — the claimed "no leading whitespace" fails. -/
theorem sanitize_leading_whitespace_counterexample :
    sanitizeStr Char.isAlphanum " a" = " a"
    ∧ (sanitizeStr Char.isAlphanum " a").data.head? = some ' '
    ∧ (' ').isWhitespace = true := by
  decide

/-- C2 (amended): the sanitized name contains only characters kept by the
filter (alphanumeric, space, hyphen, underscore) and has no trailing
whitespace; leading whitespace may remain. -/
theorem sanitize_allowed_chars_no_trailing_ws (p : Char → Bool)
    (name : List Char) :
    (∀ c ∈ sanitizeName p name, keepChar p c = true)
    ∧ (∀ c, (sanitizeName p name).getLast? = some c →
        c.isWhitespace = false) := by
  constructor
  · intro c hc
    have h1 : c ∈ (name.filter (keepChar p)).reverse.dropWhile
        Char.isWhitespace := by
      rw [sanitizeName, rstripW, List.mem_reverse] at hc
      exact hc
    have h2 : c ∈ name.filter (keepChar p) := by
      have := (List.dropWhile_sublist Char.isWhitespace).subset h1
      simpa using this
    exact (List.mem_filter.1 h2).2
  · intro c hc
    rw [sanitizeName, rstripW, List.getLast?_reverse] at hc
    exact head_dropWhile_not _ _ _ hc

/-- Witness for C2 (amended): sanitizing `"a b"` keeps `'a'` in the allowed
set and leaves the non-whitespace `'b'` as the last character. -/
theorem sanitize_allowed_chars_no_trailing_ws_witness :
    keepChar Char.isAlphanum 'a' = true ∧ Char.isWhitespace 'b' = false :=
  ⟨(sanitize_allowed_chars_no_trailing_ws Char.isAlphanum "a b".data).1 'a'
      (by decide),
   (sanitize_allowed_chars_no_trailing_ws Char.isAlphanum "a b".data).2 'b'
      (by decide)⟩

/-- C10: distinct non-empty entity names made of stripped characters
(`"!!!"`) or of trailing whitespace only (`"   "`) both sanitize to the
empty string, so both degenerate to `outputDirectory/.pdf` and collide on
that single file. -/
theorem sanitize_empty_collision (d : String) :
    ("!!!" : String) ≠ "" ∧ ("   " : String) ≠ ""
    ∧ ("!!!" : String) ≠ "   "
    ∧ sanitizeStr Char.isAlphanum "!!!" = ""
    ∧ sanitizeStr Char.isAlphanum "   " = ""
    ∧ pdfPath Char.isAlphanum d "!!!" = d ++ "/.pdf"
    ∧ pdfPath Char.isAlphanum d "   " = d ++ "/.pdf"
    ∧ pdfPath Char.isAlphanum d "!!!" = pdfPath Char.isAlphanum d "   " := by
  have h1 : sanitizeStr Char.isAlphanum "!!!" = "" := by decide
  have h2 : sanitizeStr Char.isAlphanum "   " = "" := by decide
  have hp : ∀ s : String, sanitizeStr Char.isAlphanum s = "" →
      pdfPath Char.isAlphanum d s = d ++ "/.pdf" := by
    intro s hs
    rw [pdfPath, hs, String.append_empty, String.append_assoc]
    have hlit : ("/" : String) ++ ".pdf" = "/.pdf" := by decide
    rw [hlit]
  refine ⟨by decide, by decide, by decide, h1, h2, hp _ h1, hp _ h2, ?_⟩
  rw [hp _ h1, hp _ h2]

/-! ## Body-layout claims -/

theorem foldl_append_singleton {α β : Type} (f : α → β) :
    ∀ (l : List α) (acc : List β),
      l.foldl (fun a x => a ++ [f x]) acc = acc ++ l.map f := by
  intro l
  induction l with
  | nil => intro acc; simp
  | cons x xs ih =>
    intro acc
    simp only [List.foldl_cons, List.map_cons, ih, List.append_assoc,
      List.singleton_append]

theorem buildTableData_vertical (e : ShapeEnv) (g : List Row)
    (cols : List String) (h : cols.length > 10) :
    buildTableData e g cols =
      cols.map (fun col => [fix_persian_text e (some (cellValue g col)),
        fix_persian_text e (some col)]) := by
  rw [buildTableData, if_pos h]
  exact (foldl_append_singleton
    (fun col => [fix_persian_text e (some (cellValue g col)),
      fix_persian_text e (some col)]) cols []).trans (by simp)

theorem buildTableData_horizontal (e : ShapeEnv) (g : List Row)
    (cols : List String) (h : ¬ cols.length > 10) :
    buildTableData e g cols =
      [(cols.map (fun col => fix_persian_text e (some col))).reverse,
       (cols.map (fun col =>
         fix_persian_text e (some (cellValue g col)))).reverse] := by
  rw [buildTableData, if_neg h]
  have h1 := foldl_append_singleton
    (fun col => fix_persian_text e (some col)) cols []
  have h2 := foldl_append_singleton
    (fun col => fix_persian_text e (some (cellValue g col))) cols []
  simp only [List.nil_append] at h1 h2
  rw [h1, h2]

/-- C3: the body-layout decision is the strict threshold `len(columns) > 10`
on the full column list: exactly 10 columns renders the horizontal
headers-row/values-row table (2 rows), 11 columns renders the vertical
table (one 2-element row per column). -/
theorem layout_threshold (e : ShapeEnv) (g : List Row) (cols : List String) :
    (cols.length = 10 →
      buildTableData e g cols =
        [(cols.map (fun col => fix_persian_text e (some col))).reverse,
         (cols.map (fun col =>
           fix_persian_text e (some (cellValue g col)))).reverse]
      ∧ (buildTableData e g cols).length = 2)
    ∧ (cols.length = 11 →
      buildTableData e g cols =
        cols.map (fun col => [fix_persian_text e (some (cellValue g col)),
          fix_persian_text e (some col)])
      ∧ (buildTableData e g cols).length = 11
      ∧ ∀ row ∈ buildTableData e g cols, row.length = 2) := by
  constructor
  · intro h10
    have hle : ¬ cols.length > 10 := by omega
    have hb := buildTableData_horizontal e g cols hle
    exact ⟨hb, by rw [hb]; rfl⟩
  · intro h11
    have hgt : cols.length > 10 := by omega
    have hb := buildTableData_vertical e g cols hgt
    refine ⟨hb, by rw [hb, List.length_map, h11], ?_⟩
    intro row hrow
    rw [hb] at hrow
    obtain ⟨col, _, rfl⟩ := List.mem_map.1 hrow
    rfl

/-- Witness for C3: 10 named columns give a 2-row table, 11 give an
11-row table. -/
theorem layout_threshold_witness :
    ((["c1", "c2", "c3", "c4", "c5", "c6", "c7", "c8", "c9", "c10"] :
        List String).length = 10)
    ∧ (buildTableData envOff []
        ["c1", "c2", "c3", "c4", "c5", "c6", "c7", "c8", "c9", "c10"]).length = 2
    ∧ ((["c1", "c2", "c3", "c4", "c5", "c6", "c7", "c8", "c9", "c10", "c11"] :
        List String).length = 11)
    ∧ (buildTableData envOff []
        ["c1", "c2", "c3", "c4", "c5", "c6", "c7", "c8", "c9", "c10",
         "c11"]).length = 11 :=
  ⟨by decide,
   ((layout_threshold envOff []
      ["c1", "c2", "c3", "c4", "c5", "c6", "c7", "c8", "c9", "c10"]).1
      (by decide)).2,
   by decide,
   ((layout_threshold envOff []
      ["c1", "c2", "c3", "c4", "c5", "c6", "c7", "c8", "c9", "c10", "c11"]).2
      (by decide)).2.1⟩

/-- C4: the renderer draws every field value from the first row of the
group only: the rendered table of a group equals that of its first row
alone, and each per-column value is computed from the first row. -/
theorem renderer_uses_first_row_only (e : ShapeEnv) (r : Row)
    (rest : List Row) (cols : List String) :
    buildTableData e (r :: rest) cols = buildTableData e [r] cols
    ∧ ∀ col, cellValue (r :: rest) col = cellValue [r] col :=
  ⟨rfl, fun _ => rfl⟩

/-- C5: with more than 10 columns each emitted row is
`[shaped value, shaped column name]` in the columns' original order; with
at most 10 columns the table is exactly the shaped header row and the
shaped value row, both in reversed column order; and a missing source cell
contributes the single dash `'-'` as the value handed to the shaper (which
is the rendered cell verbatim whenever shaping is the identity, e.g. when
BiDi support is off). -/
theorem layout_rows_content (e : ShapeEnv) (g : List Row)
    (cols : List String) :
    (cols.length > 10 →
      buildTableData e g cols =
        cols.map (fun col => [fix_persian_text e (some (cellValue g col)),
          fix_persian_text e (some col)]))
    ∧ (¬ cols.length > 10 →
      buildTableData e g cols =
        [(cols.map (fun col => fix_persian_text e (some col))).reverse,
         (cols.map (fun col =>
           fix_persian_text e (some (cellValue g col)))).reverse])
    ∧ (∀ (r : Row) (rest : List Row) (col : String),
        rowGet r col = Cell.na → cellValue (r :: rest) col = "-") := by
  refine ⟨buildTableData_vertical e g cols,
    buildTableData_horizontal e g cols, ?_⟩
  intro r rest col hna
  rw [cellValue, hna]

/-- Witness for C5: a 2-column table renders the two reversed rows, and a
missing cell renders as the dash. -/
theorem layout_rows_content_witness :
    (¬ (["c1", "c2"] : List String).length > 10)
    ∧ buildTableData envOff [[("c1", Cell.na)]] ["c1", "c2"] =
        [((["c1", "c2"] : List String).map
            (fun col => fix_persian_text envOff (some col))).reverse,
         ((["c1", "c2"] : List String).map (fun col =>
            fix_persian_text envOff
              (some (cellValue [[("c1", Cell.na)]] col)))).reverse]
    ∧ rowGet [("c1", Cell.na)] "c1" = Cell.na
    ∧ cellValue [[("c1", Cell.na)]] "c1" = "-" :=
  ⟨by decide,
   (layout_rows_content envOff [[("c1", Cell.na)]] ["c1", "c2"]).2.1
     (by decide),
   by decide,
   (layout_rows_content envOff [[("c1", Cell.na)]] ["c1", "c2"]).2.2
     [("c1", Cell.na)] [] "c1" (by decide)⟩

/-! ## Missing-key-column claims -/

theorem joinComma_contains {c : String} :
    ∀ cols : List String, c ∈ cols →
      ∃ pre post : List Char,
        (joinComma cols).data = pre ++ c.data ++ post := by
  intro cols
  induction cols with
  | nil => intro h; cases h
  | cons x xs ih =>
    intro hmem
    cases xs with
    | nil =>
      have hcx : c = x := by simpa using hmem
      exact ⟨[], [], by simp [joinComma, hcx]⟩
    | cons y ys =>
      rcases List.mem_cons.1 hmem with rfl | h
      · exact ⟨[], (", " ++ joinComma (y :: ys)).data,
          by simp [joinComma, String.data_append, List.append_assoc]⟩
      · obtain ⟨pre, post, hp⟩ := ih h
        refine ⟨(x ++ ", ").data ++ pre, post, ?_⟩
        simp [joinComma, String.data_append, hp, List.append_assoc]

/-- C6 counterexample: with columns `["a"]` and requested key `"b"`, the
column name `"a"` occurs three times as a substring of the error message
(twice inside the word "Available"), so the message does not contain every
column name exactly once. -/
theorem missing_column_message_count_counterexample :
    occurrencesIn "a".data
        (errorMessage (ConvError.columnNotFound "b" ["a"])).data = 3
    ∧ ¬ occurrencesIn "a".data
        (errorMessage (ConvError.columnNotFound "b" ["a"])).data = 1
    ∧ process_conversion Char.isAlphanum (fun _ _ => true)
        ⟨["a"], []⟩ "b" "out" =
      Except.error (ConvError.columnNotFound "b" ["a"]) := by
  refine ⟨by decide, by decide, ?_⟩
  rw [process_conversion, if_neg (by decide)]

/-- C6 (amended): a requested key column absent from the table aborts the
batch before any group is processed with a column-not-found error carrying
the requested name and the full column list; the message contains the
requested name and every column name at least once as substrings (each
column contributes exactly one element to the joined enumeration, but
substring occurrences can exceed one). -/
theorem missing_column_aborts_with_message (t : Table) (K : String)
    (isalnum : Char → Bool) (render : String → List Row → Bool)
    (outputDir : String) (h : K ∉ t.columns) :
    process_conversion isalnum render t K outputDir =
      Except.error (ConvError.columnNotFound K t.columns)
    ∧ (∃ pre post : List Char,
        (errorMessage (ConvError.columnNotFound K t.columns)).data =
          pre ++ K.data ++ post)
    ∧ (∀ c ∈ t.columns, ∃ pre post : List Char,
        (errorMessage (ConvError.columnNotFound K t.columns)).data =
          pre ++ c.data ++ post) := by
  refine ⟨by rw [process_conversion, if_neg h], ?_, ?_⟩
  · refine ⟨"Column '".data,
      ("' not found.\nAvailable columns: " ++ joinComma t.columns).data, ?_⟩
    simp [errorMessage, String.data_append, List.append_assoc]
  · intro c hc
    obtain ⟨pre, post, hp⟩ := joinComma_contains t.columns hc
    refine ⟨("Column '" ++ K ++ "' not found.\nAvailable columns: ").data ++
      pre, post, ?_⟩
    simp [errorMessage, String.data_append, hp, List.append_assoc]

/-- Witness for C6 (amended): requested key `"b"` against columns `["a"]`. -/
theorem missing_column_aborts_with_message_witness :
    ("b" ∉ (⟨["a"], []⟩ : Table).columns)
    ∧ process_conversion Char.isAlphanum (fun _ _ => true)
        ⟨["a"], []⟩ "b" "out" =
      Except.error (ConvError.columnNotFound "b" (⟨["a"], []⟩ : Table).columns)
    ∧ (∃ pre post : List Char,
        (errorMessage (ConvError.columnNotFound "b"
          (⟨["a"], []⟩ : Table).columns)).data = pre ++ "b".data ++ post)
    ∧ (∀ c ∈ (⟨["a"], []⟩ : Table).columns, ∃ pre post : List Char,
        (errorMessage (ConvError.columnNotFound "b"
          (⟨["a"], []⟩ : Table).columns)).data = pre ++ c.data ++ post) :=
  ⟨by decide,
   missing_column_aborts_with_message ⟨["a"], []⟩ "b" Char.isAlphanum
     (fun _ _ => true) "out" (by decide)⟩

/-! ## Batch-loop fault-tolerance claim -/

theorem runBatch_eq (isalnum : Char → Bool)
    (render : String → List Row → Bool) (t : Table) (K outputDir : String) :
    ∀ names : List String,
      runBatch isalnum render t K outputDir names =
        (names.countP (fun n => render n (groupRows t K n)),
         names.countP (fun n => !render n (groupRows t K n)),
         (names.filter (fun n => render n (groupRows t K n))).map
           (pdfPath isalnum outputDir)) := by
  intro names
  induction names with
  | nil => rfl
  | cons n ns ih =>
    simp only [runBatch, ih]
    by_cases hr : render n (groupRows t K n)
    · simp [hr, List.countP_cons, List.filter_cons]
    · simp [hr, List.countP_cons, List.filter_cons]

/-- The example table for the fault-injection witness. -/
def tWit : Table :=
  ⟨["k"], [[("k", Cell.val "x")], [("k", Cell.val "bad")],
    [("k", Cell.val "y")]]⟩

/-- A render oracle that fails exactly on the group named `"bad"`. -/
def renderWit : String → List Row → Bool := fun n _ => !(n == "bad")

/-- C9: an injected per-group render failure does not abort the batch: the
batch still returns a result, the error count is exactly one more than
without the failing group, the success count is unchanged, and the
documents produced by the remaining groups are unchanged. -/
theorem render_failure_does_not_abort (isalnum : Char → Bool)
    (render : String → List Row → Bool) (t : Table) (K outputDir : String)
    (pre post : List String) (bad : String)
    (hK : K ∈ t.columns)
    (hnames : uniqueNames t K = pre ++ bad :: post)
    (hbad : render bad (groupRows t K bad) = false) :
    process_conversion isalnum render t K outputDir =
      Except.ok (runBatch isalnum render t K outputDir (pre ++ bad :: post))
    ∧ (runBatch isalnum render t K outputDir (pre ++ bad :: post)).2.1 =
        (runBatch isalnum render t K outputDir (pre ++ post)).2.1 + 1
    ∧ (runBatch isalnum render t K outputDir (pre ++ bad :: post)).1 =
        (runBatch isalnum render t K outputDir (pre ++ post)).1
    ∧ (runBatch isalnum render t K outputDir (pre ++ bad :: post)).2.2 =
        (runBatch isalnum render t K outputDir (pre ++ post)).2.2 := by
  refine ⟨by rw [process_conversion, if_pos hK, hnames], ?_, ?_, ?_⟩
  · rw [runBatch_eq, runBatch_eq]
    simp [List.countP_append, List.countP_cons, hbad]
    omega
  · rw [runBatch_eq, runBatch_eq]
    simp [List.countP_append, List.countP_cons, hbad]
  · rw [runBatch_eq, runBatch_eq]
    simp [List.filter_append, List.filter_cons, hbad]

/-- Witness for C9: a three-group batch whose middle group `"bad"` fails. -/
theorem render_failure_does_not_abort_witness :
    ("k" ∈ tWit.columns)
    ∧ (uniqueNames tWit "k" = ["x"] ++ "bad" :: ["y"])
    ∧ (renderWit "bad" (groupRows tWit "k" "bad") = false)
    ∧ (process_conversion Char.isAlphanum renderWit tWit "k" "out" =
        Except.ok (runBatch Char.isAlphanum renderWit tWit "k" "out"
          (["x"] ++ "bad" :: ["y"]))
      ∧ (runBatch Char.isAlphanum renderWit tWit "k" "out"
          (["x"] ++ "bad" :: ["y"])).2.1 =
        (runBatch Char.isAlphanum renderWit tWit "k" "out"
          (["x"] ++ ["y"])).2.1 + 1
      ∧ (runBatch Char.isAlphanum renderWit tWit "k" "out"
          (["x"] ++ "bad" :: ["y"])).1 =
        (runBatch Char.isAlphanum renderWit tWit "k" "out"
          (["x"] ++ ["y"])).1
      ∧ (runBatch Char.isAlphanum renderWit tWit "k" "out"
          (["x"] ++ "bad" :: ["y"])).2.2 =
        (runBatch Char.isAlphanum renderWit tWit "k" "out"
          (["x"] ++ ["y"])).2.2) :=
  ⟨by decide, by decide, by decide,
   render_failure_does_not_abort Char.isAlphanum renderWit tWit "k" "out"
     ["x"] ["y"] "bad" (by decide) (by decide) (by decide)⟩

end ExcelToPdf
